import Mathlib

/-!
Shallow embedding of the worker-thread / subprocess-streaming core of the
OptimumK SolidWorks plugin (src/app.py, src/pose_creation.py,
src/coordinate_insertion.py, src/solidworks_release.py).

Python strings are modelled as Lean `String`, Python `int` values as `Int`
(unbounded, like CPython), and the PyQt signals emitted during processing of
one line as an explicit list of `Event`s.
-/

/-- The ASCII whitespace characters stripped by Python's `str.strip()`
(the inputs at issue contain only these). -/
def isPySpace (c : Char) : Bool :=
  c = ' ' || c = '\t' || c = '\n' || c = '\r' || c = '\x0b' || c = '\x0c'

/-- `str.strip()` on the character list: drop whitespace from both ends. -/
def pyStripChars (l : List Char) : List Char :=
  ((l.dropWhile isPySpace).reverse.dropWhile isPySpace).reverse

/-- Python `text.strip()`. -/
def pyStrip (s : String) : String :=
  ⟨pyStripChars s.data⟩

/-- Python `line.startswith(pre)`. -/
def pyStartsWith (s pre : String) : Bool :=
  pre.data.isPrefixOf s.data

/-- Helper for `pySplit`: accumulates the current field (reversed) while
scanning for the separator. -/
def pySplitAux (sep : Char) (acc : List Char) : List Char → List (List Char)
  | [] => [acc.reverse]
  | c :: cs =>
    if c = sep then acc.reverse :: pySplitAux sep [] cs
    else pySplitAux sep (c :: acc) cs

/-- Python `s.split(sep)` for a single-character separator: splits at every
occurrence of `sep` (`"a:b:c".split(":") == ["a","b","c"]`, `"".split(":") == [""]`). -/
def pySplit (s : String) (sep : Char) : List String :=
  (pySplitAux sep [] s.data).map String.mk

/-- Digit run of a CPython integer literal body: decimal digits with single
underscores allowed between digits (`int("1_0") == 10`, `int("1__0")` and
`int("1_")` raise). `acc` is the value of the digits consumed so far and
`afterUnderscore` records that the previous character was an underscore
(which must be followed by a digit). -/
def pyDigitsRun (acc : Nat) (afterUnderscore : Bool) : List Char → Option Nat
  | [] => if afterUnderscore then none else some acc
  | c :: cs =>
    if c.isDigit then pyDigitsRun (acc * 10 + (c.toNat - 48)) false cs
    else if c = '_' && !afterUnderscore then pyDigitsRun acc true cs
    else none

/-- Unsigned part of Python `int(s)`: must start with a digit. -/
def pyIntCore : List Char → Option Nat
  | [] => none
  | c :: cs => if c.isDigit then pyDigitsRun (c.toNat - 48) false cs else none

/-- Sign handling of Python `int(s)`, applied to the already-stripped
character list: an optional single `+`/`-` sign, then a nonempty digit run. -/
def pyIntOfStripped : List Char → Option Int
  | [] => none
  | c :: rest =>
    if c = '+' then (pyIntCore rest).map (fun n => (n : Int))
    else if c = '-' then (pyIntCore rest).map (fun n => -(n : Int))
    else (pyIntCore (c :: rest)).map (fun n => (n : Int))

/-- Python `int(s)` on the decimal string forms relevant here: surrounding
whitespace is stripped, an optional single `+`/`-` sign is allowed, then a
nonempty ASCII digit run (with CPython's underscore grouping).  Returns
`none` where CPython raises `ValueError`. -/
def pyInt (s : String) : Option Int :=
  pyIntOfStripped (pyStripChars s.data)

/-- The character `'0' + d` for a digit value `d < 10`. -/
def digitChar (d : Nat) : Char := Char.ofNat (48 + d)

/-- Decimal representation of a natural number, accumulator form
(mirrors how a nonnegative Python integer is rendered in an output line). -/
def decRepAux (n : Nat) (acc : List Char) : List Char :=
  if h : n < 10 then digitChar n :: acc
  else decRepAux (n / 10) (digitChar (n % 10) :: acc)
termination_by n
decreasing_by exact Nat.div_lt_self (by omega) (by omega)

/-- Decimal numeral string of `n : Nat`. -/
def decRep (n : Nat) : String := ⟨decRepAux n []⟩

/-- Number of decimal digits of `n`. -/
def numDigits (n : Nat) : Nat :=
  if n < 10 then 1 else numDigits (n / 10) + 1
termination_by n
decreasing_by exact Nat.div_lt_self (by omega) (by omega)

/-- A PyQt signal emission observed by the GUI: `progress(current, total)`,
`state_changed(text)`, or `log(text)`. -/
inductive Event
  | progress (current total : Int)
  | stateChanged (text : String)
  | logLine (text : String)
deriving DecidableEq

/-- The per-worker mutable counters `_total_tasks` and `_current_progress`
(both initialised to 0 in `__init__`). -/
structure WorkerState where
  total_tasks : Int
  current_progress : Int
deriving DecidableEq

/-- Result of one `parse_output_line` call: the updated worker counters, the
signals emitted during the call, and the Python return value (`None` for
protocol lines, the line itself otherwise). -/
structure LineResult where
  state : WorkerState
  events : List Event
  ret : Option String
deriving DecidableEq

/-- The `state_descriptions` dict of `HardpointWorker.parse_output_line`. -/
def hardpoint_state_descriptions : List (String × String) :=
  [("Initializing", "Starting..."),
   ("LoadingJson", "Loading JSON data..."),
   ("LoadingMarkerPart", "Loading marker part..."),
   ("InsertingBodies", "Inserting marker bodies..."),
   ("RenamingBodies", "Renaming bodies..."),
   ("ApplyingColors", "Applying colors..."),
   ("CreatingCoordinateSystems", "Creating coordinate systems..."),
   ("CreatingHardpointsFolder", "Creating Hardpoints folder..."),
   ("CreatingTransformsFolder", "Creating Transforms folder..."),
   ("CreatingTransforms", "Creating transform features..."),
   ("UpdatingSuppression", "Updating suppression..."),
   ("Rebuilding", "Rebuilding model..."),
   ("Complete", "Done")]

/-- The `state_descriptions` dict of `PoseCreationWorker.parse_output_line`. -/
def pose_state_descriptions : List (String × String) :=
  [("Initializing", "Starting pose creation..."),
   ("LoadingJson", "Loading JSON data..."),
   ("LoadingMarkerPart", "Loading marker part..."),
   ("CreatingCoordinateSystems", "Creating coordinate systems..."),
   ("CreatingTransformsFolder", "Creating Transforms folder..."),
   ("CreatingTransforms", "Creating transform features..."),
   ("Rebuilding", "Rebuilding model..."),
   ("Complete", "Pose creation complete")]

/-- Generic embedding of the `parse_output_line` method shared (up to the
`state_descriptions` dict) by `HardpointWorker`, `PoseCreationWorker` and
`CoordinateInsertionWorker`.

Source correspondences:
* `line.split(":")[1]` is `(pySplit line ':').get? 1`; in the `TOTAL:` and
  `PROGRESS:` branches both an `IndexError` from `[1]` and a `ValueError`
  from `int(...)` are swallowed by the bare `except: pass`, which is the
  `none` case of `((pySplit line ':').get? 1).bind pyInt`.
* In the `STATE:` branch the index access is outside any `try`, but a line
  that starts with `"STATE:"` always splits into at least two fields, so the
  `getD ""` default is never used.
* `self.progress.emit(a, b)` / `self.state_changed.emit(d)` become entries of
  `events`; the Python return value becomes `ret`. -/
def parse_output_line (descriptions : List (String × String))
    (st : WorkerState) (line : String) : LineResult :=
  if pyStartsWith line "TOTAL:" then
    match ((pySplit line ':').get? 1).bind pyInt with
    | some n =>
        { state := { st with total_tasks := n },
          events := [.progress st.current_progress n],
          ret := none }
    | none => { state := st, events := [], ret := none }
  else if pyStartsWith line "PROGRESS:" then
    match ((pySplit line ':').get? 1).bind pyInt with
    | some n =>
        { state := { st with current_progress := n },
          events := [.progress n st.total_tasks],
          ret := none }
    | none => { state := st, events := [], ret := none }
  else if pyStartsWith line "STATE:" then
    let state := ((pySplit line ':').get? 1).getD ""
    let description := (descriptions.lookup state).getD state
    { state := st, events := [.stateChanged description], ret := none }
  else
    { state := st, events := [], ret := some line }

/-- `HardpointWorker.parse_output_line` (src/app.py). -/
def hardpoint_parse_output_line (st : WorkerState) (line : String) : LineResult :=
  parse_output_line hardpoint_state_descriptions st line

/-- `PoseCreationWorker.parse_output_line` (src/pose_creation.py). -/
def pose_parse_output_line (st : WorkerState) (line : String) : LineResult :=
  parse_output_line pose_state_descriptions st line

/-- `HardpointWorker._handle_log`: run `parse_output_line` and forward the
returned line (when not `None`) through the `log` signal. -/
def hardpoint_handle_log (st : WorkerState) (text : String) : WorkerState × List Event :=
  let r := hardpoint_parse_output_line st text
  match r.ret with
  | some l => (r.state, r.events ++ [.logLine l])
  | none => (r.state, r.events)

/-- `PoseCreationWorker._handle_log`. -/
def pose_handle_log (st : WorkerState) (text : String) : WorkerState × List Event :=
  let r := pose_parse_output_line st text
  match r.ret with
  | some l => (r.state, r.events ++ [.logLine l])
  | none => (r.state, r.events)

/-- `QtStream.write` (src/app.py): emits `text.strip()` through the
`text_written` signal only when the stripped text is truthy (nonempty). -/
def qtStream_write (text : String) : List String :=
  if pyStrip text ≠ "" then [pyStrip text] else []

/-- The composition `QtStream.write` → `HardpointWorker._handle_log`: what a
raw `print`-style write contributes in worker counters and emitted signals. -/
def hardpoint_feed_raw (st : WorkerState) (text : String) : WorkerState × List Event :=
  (qtStream_write text).foldl
    (fun acc l =>
      let r := hardpoint_handle_log acc.1 l
      (r.1, acc.2 ++ r.2))
    (st, [])

/-- Folding `HardpointWorker._handle_log` over a sequence of output lines,
keeping only the worker counters. -/
def hardpoint_feed_lines (st : WorkerState) (lines : List String) : WorkerState :=
  lines.foldl (fun s l => (hardpoint_handle_log s l).1) st

/-- One iteration of the line-reading loop of
`CoordinateInsertionTab.run_hardpoint_command` (src/app.py): the line is
stripped, blank lines are skipped, and the `TOTAL:`/`PROGRESS:`/`STATE:`
directives are re-parsed inline.  Unlike `parse_output_line`, the inline
`STATE:` handling emits the raw token `line.split(":")[1]` with no
`state_descriptions` mapping.  `hasWorker` is the `if worker:` guard; in the
`TOTAL:`/`PROGRESS:` branches `int(...)` runs (and its failure is swallowed)
before the guard is consulted. -/
def run_hardpoint_command_line (hasWorker : Bool) (st : WorkerState)
    (rawLine : String) : WorkerState × List Event :=
  let line := pyStrip rawLine
  if line ≠ "" then
    if pyStartsWith line "TOTAL:" then
      match ((pySplit line ':').get? 1).bind pyInt with
      | some n =>
          if hasWorker then ({ st with total_tasks := n }, [.progress st.current_progress n])
          else (st, [])
      | none => (st, [])
    else if pyStartsWith line "PROGRESS:" then
      match ((pySplit line ':').get? 1).bind pyInt with
      | some n =>
          if hasWorker then ({ st with current_progress := n }, [.progress n st.total_tasks])
          else (st, [])
      | none => (st, [])
    else if pyStartsWith line "STATE:" then
      let state := ((pySplit line ':').get? 1).getD ""
      if hasWorker then (st, [.stateChanged state]) else (st, [])
    else
      if hasWorker then (st, [.logLine line]) else (st, [])
  else (st, [])

/-- Outcome of calling the operation passed to a worker: a normal Python
return value (the runners return a `bool`) or an exception with message
`str(e)`. -/
inductive OpOutcome
  | ret (value : Bool)
  | exn (msg : String)
deriving DecidableEq

/-- Terminal `finished` notification of `HardpointWorker.run` (src/app.py):
the operation's return value is bound to `result` and never read; only the
abort flag and whether an exception was raised determine the result. -/
def hardpointWorker_finished (abortFlag : Bool) (outcome : OpOutcome) : Bool × String :=
  match outcome with
  | .ret _ =>
    if abortFlag then (false, "Operation aborted")
    else (true, "Operation completed successfully")
  | .exn m =>
    if abortFlag then (false, "Operation aborted")
    else (false, m)

/-- Terminal `finished` notification of `PoseCreationWorker.run`
(src/pose_creation.py); same shape as `hardpointWorker_finished`, with the
operation's returned `bool` likewise discarded. -/
def poseCreationWorker_finished (abortFlag : Bool) (outcome : OpOutcome) : Bool × String :=
  match outcome with
  | .ret _ =>
    if abortFlag then (false, "Operation aborted")
    else (true, "Pose creation completed successfully")
  | .exn m =>
    if abortFlag then (false, "Operation aborted")
    else (false, m)

/-- Terminal `finished` notification of `CoordinateInsertionWorker.run`
(src/coordinate_insertion.py). -/
def coordinateInsertionWorker_finished (abortFlag : Bool) (outcome : OpOutcome) : Bool × String :=
  match outcome with
  | .ret _ =>
    if abortFlag then (false, "Operation aborted")
    else (true, "Coordinate insertion completed successfully")
  | .exn m =>
    if abortFlag then (false, "Operation aborted")
    else (false, m)

/-- Tail of `CoordinateInsertionTab.run_hardpoint_command` after the stream
ends: `process.wait()`, then return `True` on exit code `0`, otherwise raise
`Exception(f"Command failed with exit code {returncode}")` (which the
`except` clause logs as `"Error: ..."` and re-raises). -/
def run_hardpoint_command_outcome (returncode : Int) : OpOutcome :=
  if returncode = 0 then .ret true
  else .exn ("Command failed with exit code " ++ toString returncode)

/-- Tail of `create_pose` (src/pose_creation.py): returns `False` when the
abort flag was observed mid-stream (after terminating the process), else
`process.wait()` and return `returncode == 0`.  It never raises here. -/
def create_pose_outcome (abortMidStream : Bool) (returncode : Int) : OpOutcome :=
  if abortMidStream then .ret false else .ret (returncode == 0)

/-- Composite terminal result of a `HardpointWorker` run of
`run_hardpoint_command`, as a function of the abort flag at
result-computation time and the subprocess exit code. -/
def hardpoint_run_result (abortFlag : Bool) (returncode : Int) : Bool × String :=
  hardpointWorker_finished abortFlag (run_hardpoint_command_outcome returncode)

/-- Composite terminal result of a `PoseCreationWorker` run of `create_pose`. -/
def pose_run_result (abortFlag abortMidStream : Bool) (returncode : Int) : Bool × String :=
  poseCreationWorker_finished abortFlag (create_pose_outcome abortMidStream returncode)

/-- Condition of `self._process` as seen by a worker's `abort` method:
whether a process object was stored, whether `poll()` reports it still
running, and whether `terminate()` + `wait(timeout=2)` completes without
raising. -/
structure ProcState where
  present : Bool
  running : Bool
  terminateOk : Bool
deriving DecidableEq

/-- External side effects a worker's `abort` method can perform. -/
inductive AbortAction
  | terminate
  | wait
  | kill
  | releaseCall
deriving DecidableEq

/-- The process-termination part shared by all worker `abort` methods:
`if self._process and self._process.poll() is None: try terminate/wait
except: try kill except: pass` (a failing `kill` is also swallowed). -/
def worker_terminate_actions (p : ProcState) : List AbortAction :=
  if p.present && p.running then
    if p.terminateOk then [.terminate, .wait]
    else [.terminate, .wait, .kill]
  else []

/-- `HardpointWorker.abort` (src/app.py): sets `_abort` and terminates the
subprocess; it performs no release call. Returns (abort flag, actions). -/
def hardpointWorker_abort (p : ProcState) : Bool × List AbortAction :=
  (true, worker_terminate_actions p)

/-- Environment of one `release_solidworks_command_state()` call: no
executable found, `subprocess.run` completed with the given exit code and
captured streams, or `subprocess.run` raised (e.g. timeout). -/
inductive ReleaseEnv
  | noExe
  | ran (returncode : Int) (stdout stderr : String)
  | raised (msg : String)
deriving DecidableEq

/-- `release_solidworks_command_state` (src/solidworks_release.py): always
returns a `(success, message)` pair, catching every exception. The message is
`stdout.strip() or stderr.strip() or f"release exited with code {rc}"`. -/
def release_solidworks_command_state : ReleaseEnv → Bool × String
  | .noExe => (false, "SuspensionTools executable not found for release")
  | .ran rc out err =>
    let output := pyStrip out
    let error := pyStrip err
    let message :=
      if output ≠ "" then output
      else if error ≠ "" then error
      else "release exited with code " ++ toString rc
    (rc == 0, message)
  | .raised m => (false, m)

/-- `CoordinateInsertionWorker.abort` (src/coordinate_insertion.py): after
the termination attempt, when a process object was stored it calls
`release_solidworks_command_state()` and, if that reports failure, only
prints a warning line. Returns (abort flag, actions, printed warnings). -/
def coordinateInsertionWorker_abort (p : ProcState) (renv : ReleaseEnv) :
    Bool × List AbortAction × List String :=
  let actions := worker_terminate_actions p
  if p.present then
    let res := release_solidworks_command_state renv
    (true, actions ++ [.releaseCall],
      if res.1 then []
      else ["Warning: Failed to release SolidWorks state after abort: " ++ res.2])
  else (true, actions, [])

/-- Decidable check used to state the amended nonnegativity invariant: the
numeric field a `TOTAL:`/`PROGRESS:` line would parse, when it parses at
all, is nonnegative. -/
def linePayloadNonneg (line : String) : Bool :=
  if pyStartsWith line "TOTAL:" || pyStartsWith line "PROGRESS:" then
    match ((pySplit line ':').get? 1).bind pyInt with
    | some n => decide (0 ≤ n)
    | none => true
  else true

/-! ## Helper lemmas about the string primitives -/

theorem digitChar_facts :
    ∀ d : Nat, d < 10 →
      (digitChar d).isDigit = true ∧ (digitChar d).toNat - 48 = d ∧
      digitChar d ≠ ':' ∧ digitChar d ≠ '+' ∧ digitChar d ≠ '-' ∧
      isPySpace (digitChar d) = false := by decide

theorem dropWhile_eq_self_of_head (p : Char → Bool) (l : List Char)
    (h : ∀ c ∈ l, p c = false) : l.dropWhile p = l := by
  cases l with
  | nil => rfl
  | cons c cs =>
    have hc : p c = false := h c (List.mem_cons_self c cs)
    simp [List.dropWhile, hc]

theorem pyStripChars_eq_self (l : List Char)
    (h : ∀ c ∈ l, isPySpace c = false) : pyStripChars l = l := by
  unfold pyStripChars
  rw [dropWhile_eq_self_of_head _ _ h]
  rw [dropWhile_eq_self_of_head _ _ (by intro c hc; exact h c (List.mem_reverse.mp hc))]
  exact List.reverse_reverse l

theorem isPrefixOf_append_self (p t : List Char) : p.isPrefixOf (p ++ t) = true := by
  induction p with
  | nil => cases t <;> rfl
  | cons c cs ih => simp [List.isPrefixOf, ih]

theorem pySplitAux_no_sep (sep : Char) (l : List Char)
    (h : ∀ c ∈ l, c ≠ sep) : ∀ acc, pySplitAux sep acc l = [acc.reverse ++ l] := by
  induction l with
  | nil => intro acc; simp [pySplitAux]
  | cons c cs ih =>
    intro acc
    have hc : c ≠ sep := h c (List.mem_cons_self c cs)
    simp only [pySplitAux, if_neg hc]
    rw [ih (fun x hx => h x (List.mem_cons_of_mem c hx))]
    simp

theorem pySplitAux_append (sep : Char) (l1 : List Char)
    (h : ∀ c ∈ l1, c ≠ sep) :
    ∀ acc l2, pySplitAux sep acc (l1 ++ sep :: l2) =
      (acc.reverse ++ l1) :: pySplitAux sep [] l2 := by
  induction l1 with
  | nil => intro acc l2; simp [pySplitAux]
  | cons c cs ih =>
    intro acc l2
    have hc : c ≠ sep := h c (List.mem_cons_self c cs)
    simp only [List.cons_append, pySplitAux, if_neg hc, List.append_eq]
    rw [ih (fun x hx => h x (List.mem_cons_of_mem c hx))]
    simp

theorem decRepAux_step_lt (n : Nat) (h : n < 10) (acc : List Char) :
    decRepAux n acc = digitChar n :: acc := by
  rw [decRepAux]
  exact dif_pos h

theorem decRepAux_step_ge (n : Nat) (h : ¬ n < 10) (acc : List Char) :
    decRepAux n acc = decRepAux (n / 10) (digitChar (n % 10) :: acc) := by
  rw [decRepAux]
  exact dif_neg h

theorem numDigits_step_lt (n : Nat) (h : n < 10) : numDigits n = 1 := by
  rw [numDigits]
  exact if_pos h

theorem numDigits_step_ge (n : Nat) (h : ¬ n < 10) :
    numDigits n = numDigits (n / 10) + 1 := by
  conv_lhs => rw [numDigits]
  exact if_neg h

theorem decRepAux_chars (P : Char → Prop) (hP : ∀ d, d < 10 → P (digitChar d)) :
    ∀ n rest, (∀ c ∈ rest, P c) → ∀ c ∈ decRepAux n rest, P c := by
  intro n
  induction n using Nat.strong_induction_on with
  | _ n ih =>
    intro rest hrest c hc
    by_cases h : n < 10
    · rw [decRepAux_step_lt n h] at hc
      rcases List.mem_cons.mp hc with h1 | h2
      · exact h1 ▸ hP n h
      · exact hrest c h2
    · rw [decRepAux_step_ge n h] at hc
      refine ih (n / 10) (Nat.div_lt_self (by omega) (by omega)) _ ?_ c hc
      intro x hx
      rcases List.mem_cons.mp hx with h1 | h2
      · exact h1 ▸ hP (n % 10) (Nat.mod_lt n (by omega))
      · exact hrest x h2

theorem pyDigitsRun_decRepAux (n : Nat) :
    ∀ acc rest, pyDigitsRun acc false (decRepAux n rest) =
      pyDigitsRun (acc * 10 ^ numDigits n + n) false rest := by
  induction n using Nat.strong_induction_on with
  | _ n ih =>
    intro acc rest
    by_cases h : n < 10
    · rw [decRepAux_step_lt n h, numDigits_step_lt n h]
      have hd := digitChar_facts n h
      simp only [pyDigitsRun, hd.1, if_true]
      rw [hd.2.1, pow_one]
    · rw [decRepAux_step_ge n h,
        ih (n / 10) (Nat.div_lt_self (by omega) (by omega)) acc (digitChar (n % 10) :: rest)]
      have hd := digitChar_facts (n % 10) (Nat.mod_lt n (by omega))
      simp only [pyDigitsRun, hd.1, if_true]
      rw [hd.2.1, numDigits_step_ge n h, pow_succ, ← Nat.mul_assoc]
      generalize acc * 10 ^ numDigits (n / 10) = B
      congr 1
      omega

theorem decRepAux_head (n : Nat) :
    ∀ rest, ∃ d t, d < 10 ∧ decRepAux n rest = digitChar d :: t := by
  induction n using Nat.strong_induction_on with
  | _ n ih =>
    intro rest
    by_cases h : n < 10
    · exact ⟨n, rest, h, decRepAux_step_lt n h rest⟩
    · obtain ⟨d, t, hd, ht⟩ :=
        ih (n / 10) (Nat.div_lt_self (by omega) (by omega)) (digitChar (n % 10) :: rest)
      exact ⟨d, t, hd, by rw [decRepAux_step_ge n h, ht]⟩

theorem pyIntCore_decRepAux (n : Nat) : pyIntCore (decRepAux n []) = some n := by
  obtain ⟨d, t, hd, ht⟩ := decRepAux_head n []
  have hf := digitChar_facts d hd
  have h0 : pyIntCore (decRepAux n []) = pyDigitsRun 0 false (decRepAux n []) := by
    rw [ht]
    simp only [pyIntCore, pyDigitsRun, hf.1, if_true]
    norm_num
  rw [h0, pyDigitsRun_decRepAux n 0 []]
  simp [pyDigitsRun]

theorem decRep_chars_digit (n : Nat) :
    ∀ c ∈ decRepAux n [], c.isDigit = true ∧ c ≠ ':' ∧ c ≠ '+' ∧ c ≠ '-' ∧
      isPySpace c = false := by
  refine decRepAux_chars _ ?_ n [] (by simp)
  intro d hd
  have hf := digitChar_facts d hd
  exact ⟨hf.1, hf.2.2.1, hf.2.2.2.1, hf.2.2.2.2.1, hf.2.2.2.2.2⟩

theorem pyInt_decRep (n : Nat) : pyInt (decRep n) = some (n : Int) := by
  have hchars := decRep_chars_digit n
  have hstrip : pyStripChars (decRep n).data = decRepAux n [] :=
    pyStripChars_eq_self _ (fun c hc => (hchars c hc).2.2.2.2)
  obtain ⟨d, t, hd, ht⟩ := decRepAux_head n []
  have hmem : digitChar d ∈ decRepAux n [] := by
    rw [ht]; exact List.mem_cons_self _ _
  unfold pyInt
  rw [hstrip, ht]
  simp only [pyIntOfStripped, if_neg (hchars _ hmem).2.2.1, if_neg (hchars _ hmem).2.2.2.1]
  rw [← ht, pyIntCore_decRepAux n]
  rfl

theorem pySplit_prefix_payload (p rest : List Char) (hp : ∀ c ∈ p, c ≠ ':') :
    pySplit ⟨p ++ ':' :: rest⟩ ':' =
      String.mk p :: (pySplitAux ':' [] rest).map String.mk := by
  show ((pySplitAux ':' [] (p ++ ':' :: rest)).map String.mk) = _
  rw [pySplitAux_append ':' p hp [] rest]
  simp

theorem pySplit_get1_simple (p rest : List Char) (hp : ∀ c ∈ p, c ≠ ':')
    (hr : ∀ c ∈ rest, c ≠ ':') :
    (pySplit ⟨p ++ ':' :: rest⟩ ':').get? 1 = some (String.mk rest) := by
  rw [pySplit_prefix_payload p rest hp, pySplitAux_no_sep ':' rest hr []]
  rfl

theorem pySplit_get1_mid (p tok rest2 : List Char) (hp : ∀ c ∈ p, c ≠ ':')
    (htok : ∀ c ∈ tok, c ≠ ':') :
    (pySplit ⟨p ++ ':' :: (tok ++ ':' :: rest2)⟩ ':').get? 1 = some (String.mk tok) := by
  rw [pySplit_prefix_payload p _ hp, pySplitAux_append ':' tok htok [] rest2]
  rfl

theorem pyStartsWith_of_data (s pre : String) (t : List Char)
    (h : s.data = pre.data ++ t) : pyStartsWith s pre = true := by
  unfold pyStartsWith
  rw [h]
  exact isPrefixOf_append_self _ _

theorem pyStartsWith_false_of_head (s pre : String) (a b : Char) (sa pb : List Char)
    (hs : s.data = a :: sa) (hp : pre.data = b :: pb) (hab : (b == a) = false) :
    pyStartsWith s pre = false := by
  unfold pyStartsWith
  rw [hs, hp]
  simp [List.isPrefixOf, hab]

theorem pySplit_get1_of_data (s : String) (p rest : List Char)
    (hs : s.data = p ++ ':' :: rest) (hp : ∀ c ∈ p, c ≠ ':')
    (hr : ∀ c ∈ rest, c ≠ ':') :
    (pySplit s ':').get? 1 = some (String.mk rest) := by
  unfold pySplit
  rw [hs, pySplitAux_append ':' p hp [] rest, pySplitAux_no_sep ':' rest hr []]
  rfl

theorem pySplit_get1_mid_of_data (s : String) (p tok rest2 : List Char)
    (hs : s.data = p ++ ':' :: (tok ++ ':' :: rest2))
    (hp : ∀ c ∈ p, c ≠ ':') (htok : ∀ c ∈ tok, c ≠ ':') :
    (pySplit s ':').get? 1 = some (String.mk tok) := by
  unfold pySplit
  rw [hs, pySplitAux_append ':' p hp, pySplitAux_append ':' tok htok]
  rfl

theorem pyStrip_eq_self_of_data (s : String)
    (h : ∀ c ∈ s.data, isPySpace c = false) : pyStrip s = s := by
  unfold pyStrip
  rw [pyStripChars_eq_self s.data h]

/-! ## Claim theorems -/

/-- C1 (code bug witness): a pose-creation run whose subprocess exits with
code 3 and whose abort flag was never set is reported to observers as
`(True, "Pose creation completed successfully")`: `create_pose` returns
`False` but `PoseCreationWorker.run` discards that value.  The hardpoint
runner path, by contrast, does surface
`(False, "Command failed with exit code 3")` as the claim states. -/
theorem pose_nonzero_exit_reported_as_success :
    pose_run_result false false 3 = (true, "Pose creation completed successfully") ∧
    hardpoint_run_result false 3 = (false, "Command failed with exit code 3") := by
  decide

/-- C2: whenever the abort flag is set at the moment the terminal result is
computed, the `finished` notification is `(false, "Operation aborted")`,
whatever the operation returned or raised, and whatever the subprocess exit
code was. -/
theorem abort_flag_forces_operation_aborted :
    ∀ (o : OpOutcome) (rc : Int) (am : Bool),
      hardpointWorker_finished true o = (false, "Operation aborted") ∧
      poseCreationWorker_finished true o = (false, "Operation aborted") ∧
      hardpoint_run_result true rc = (false, "Operation aborted") ∧
      pose_run_result true am rc = (false, "Operation aborted") := by
  intro o rc am
  refine ⟨?_, ?_, ?_, ?_⟩
  · cases o <;> rfl
  · cases o <;> rfl
  · unfold hardpoint_run_result run_hardpoint_command_outcome
    by_cases h : rc = 0 <;> simp [h, hardpointWorker_finished]
  · unfold pose_run_result create_pose_outcome
    cases am <;> rfl

/-- C4 (counterexample): fed through the inline line handling of
`CoordinateInsertionTab.run_hardpoint_command`, the line `STATE:Rebuilding`
emits a state-changed event whose text is the raw token `"Rebuilding"`, not
`"Rebuilding model..."`. -/
theorem runner_state_rebuilding_raw_token_counterexample :
    run_hardpoint_command_line true ⟨0, 0⟩ "STATE:Rebuilding" =
      ((⟨0, 0⟩ : WorkerState), [Event.stateChanged "Rebuilding"]) ∧
    Event.stateChanged "Rebuilding" ≠ Event.stateChanged "Rebuilding model..." := by
  decide

/-- C4 (amended): feeding `STATE:Rebuilding` to `HardpointWorker`'s
`parse_output_line`/`_handle_log` emits exactly one state-changed event with
text `"Rebuilding model..."` and zero log-line events; the inline handler of
`run_hardpoint_command` also emits exactly one state-changed event and zero
log-line events, but its text is the raw token `"Rebuilding"`. -/
theorem state_rebuilding_events (st : WorkerState) :
    hardpoint_handle_log st "STATE:Rebuilding" =
      (st, [Event.stateChanged "Rebuilding model..."]) ∧
    run_hardpoint_command_line true st "STATE:Rebuilding" =
      (st, [Event.stateChanged "Rebuilding"]) :=
  ⟨rfl, rfl⟩

/-- C7 (counterexample): the line `TOTAL:1:2` has remainder `1:2` after the
first colon, which is not parseable as an integer, yet feeding it updates
`_total_tasks` to 1 and emits a progress event: the code parses
`line.split(":")[1]`, not the whole remainder. -/
theorem total_multicolon_payload_counterexample :
    pyInt "1:2" = none ∧
    hardpoint_handle_log ⟨0, 0⟩ "TOTAL:1:2" =
      ((⟨1, 0⟩ : WorkerState), [Event.progress 0 1]) := by
  decide

/-- C7 (amended): feeding a `TOTAL:`/`PROGRESS:` line whose second
colon-separated field (the field the code actually parses) does not parse
as an integer never raises, changes neither counter, and emits no event of
any kind. -/
theorem unparseable_numeric_field_ignored (st : WorkerState) (line : String)
    (hpre : pyStartsWith line "TOTAL:" = true ∨ pyStartsWith line "PROGRESS:" = true)
    (h : ((pySplit line ':').get? 1).bind pyInt = none) :
    hardpoint_handle_log st line = (st, []) := by
  unfold hardpoint_handle_log hardpoint_parse_output_line parse_output_line
  rw [List.get?_eq_getElem?] at h
  by_cases h1 : pyStartsWith line "TOTAL:" = true
  · simp [h1, h]
  · have h2 : pyStartsWith line "PROGRESS:" = true := by
      rcases hpre with hp | hp
      · exact absurd hp h1
      · exact hp
    simp [h1, h2, h]

/-- Witness for C7's amended theorem at the concrete line `TOTAL:abc`. -/
theorem unparseable_numeric_field_ignored_witness :
    ((pySplit "TOTAL:abc" ':').get? 1).bind pyInt = none ∧
    hardpoint_handle_log ⟨0, 0⟩ "TOTAL:abc" = ((⟨0, 0⟩ : WorkerState), []) :=
  ⟨by decide,
   unparseable_numeric_field_ignored ⟨0, 0⟩ "TOTAL:abc" (Or.inl (by decide)) (by decide)⟩

/-- C8: a line that is empty or whitespace-only after trimming produces no
events at all: `QtStream.write` swallows it before it reaches
`_handle_log`, and the `run_hardpoint_command` loop skips it. -/
theorem blank_line_emits_no_events (st : WorkerState) (text : String)
    (h : pyStrip text = "") :
    qtStream_write text = [] ∧
    hardpoint_feed_raw st text = (st, []) ∧
    run_hardpoint_command_line true st text = (st, []) := by
  have hq : qtStream_write text = [] := by
    unfold qtStream_write
    simp [h]
  refine ⟨hq, ?_, ?_⟩
  · unfold hardpoint_feed_raw
    rw [hq]
    rfl
  · unfold run_hardpoint_command_line
    simp [h]

/-- Witness for C8 at the concrete whitespace-only text. -/
theorem blank_line_emits_no_events_witness :
    pyStrip " \t  " = "" ∧
    (qtStream_write " \t  " = [] ∧
     hardpoint_feed_raw ⟨0, 0⟩ " \t  " = ((⟨0, 0⟩ : WorkerState), []) ∧
     run_hardpoint_command_line true ⟨0, 0⟩ " \t  " = ((⟨0, 0⟩ : WorkerState), [])) :=
  ⟨by decide, blank_line_emits_no_events ⟨0, 0⟩ " \t  " (by decide)⟩

/-- C9 (counterexample): aborting a running `HardpointWorker` terminates the
subprocess but performs no release call at all, contradicting the claim that
every aborted run invokes the best-effort release. -/
theorem hardpoint_abort_performs_no_release_counterexample :
    hardpointWorker_abort ⟨true, true, true⟩ =
      (true, [AbortAction.terminate, AbortAction.wait]) ∧
    AbortAction.releaseCall ∉ (hardpointWorker_abort ⟨true, true, true⟩).2 := by
  decide

/-- C9 (amended): for `CoordinateInsertionWorker`, aborting with a stored
subprocess does invoke the release call; whatever the release environment,
a release failure produces only a printed warning, the abort flag is set,
and the terminal result of the aborted run stays
`(false, "Operation aborted")` (the model is a total function: nothing
escalates to the caller). -/
theorem coordinate_abort_release_best_effort (p : ProcState) (renv : ReleaseEnv)
    (o : OpOutcome) (hp : p.present = true) :
    AbortAction.releaseCall ∈ (coordinateInsertionWorker_abort p renv).2.1 ∧
    (coordinateInsertionWorker_abort p renv).1 = true ∧
    coordinateInsertionWorker_finished true o = (false, "Operation aborted") ∧
    ((release_solidworks_command_state renv).1 = false →
      (coordinateInsertionWorker_abort p renv).2.2 =
        ["Warning: Failed to release SolidWorks state after abort: " ++
          (release_solidworks_command_state renv).2]) := by
  unfold coordinateInsertionWorker_abort
  rw [hp]
  refine ⟨by simp, by simp, by cases o <;> rfl, ?_⟩
  intro hrel
  simp [hrel]

/-- Witness for C9's amended theorem: a present, running process and a
release environment in which no executable is found (so the release fails). -/
theorem coordinate_abort_release_best_effort_witness :
    (⟨true, true, true⟩ : ProcState).present = true ∧
    (release_solidworks_command_state ReleaseEnv.noExe).1 = false ∧
    AbortAction.releaseCall ∈
      (coordinateInsertionWorker_abort ⟨true, true, true⟩ ReleaseEnv.noExe).2.1 ∧
    (coordinateInsertionWorker_abort ⟨true, true, true⟩ ReleaseEnv.noExe).2.2 =
      ["Warning: Failed to release SolidWorks state after abort: SuspensionTools executable not found for release"] :=
  ⟨rfl, rfl,
   (coordinate_abort_release_best_effort ⟨true, true, true⟩ ReleaseEnv.noExe (.ret true) rfl).1,
   by
     have h := (coordinate_abort_release_best_effort ⟨true, true, true⟩ ReleaseEnv.noExe
       (.ret true) rfl).2.2.2 rfl
     rw [h]
     rfl⟩

/-- C3 (counterexample): the line `STATE:Phase:2` yields the state token
`"Phase"` (the field between the first and second colon), not the claimed
remainder `"Phase:2"`: `line.split(":")` splits at every colon. -/
theorem state_token_truncated_counterexample :
    (hardpoint_handle_log ⟨0, 0⟩ "STATE:Phase:2").2 = [Event.stateChanged "Phase"] ∧
    (hardpoint_handle_log ⟨0, 0⟩ "STATE:Phase:2").2 ≠ [Event.stateChanged "Phase:2"] := by
  decide

/-- C3 (amended): for every `STATE:` line, the phase token is the second
colon-separated field, i.e. the text between the first and the second colon
(any text after a second colon is dropped); a token not in the fixed phase
vocabulary is passed through verbatim in the state-changed notification,
with no log-line event. -/
theorem state_token_between_first_and_second_colon (st : WorkerState) (tok rest : String)
    (hcolon : tok.data.all (fun c => c != ':') = true)
    (hH : hardpoint_state_descriptions.lookup tok = none)
    (hP : pose_state_descriptions.lookup tok = none) :
    hardpoint_handle_log st ("STATE:" ++ tok ++ ":" ++ rest) =
      (st, [Event.stateChanged tok]) ∧
    pose_handle_log st ("STATE:" ++ tok ++ ":" ++ rest) =
      (st, [Event.stateChanged tok]) := by
  have hc : ∀ c ∈ tok.data, c ≠ ':' := by
    intro c hmem
    simpa using List.all_eq_true.mp hcolon c hmem
  have hdata : ("STATE:" ++ tok ++ ":" ++ rest).data =
      ['S', 'T', 'A', 'T', 'E'] ++ ':' :: (tok.data ++ ':' :: rest.data) := by
    simp only [String.data_append, List.append_assoc]
    rfl
  have hTot : pyStartsWith ("STATE:" ++ tok ++ ":" ++ rest) "TOTAL:" = false :=
    pyStartsWith_false_of_head _ _ 'S' 'T' _ _ hdata rfl (by decide)
  have hProg : pyStartsWith ("STATE:" ++ tok ++ ":" ++ rest) "PROGRESS:" = false :=
    pyStartsWith_false_of_head _ _ 'S' 'P' _ _ hdata rfl (by decide)
  have hState : pyStartsWith ("STATE:" ++ tok ++ ":" ++ rest) "STATE:" = true :=
    pyStartsWith_of_data _ _ (tok.data ++ ':' :: rest.data) hdata
  have hget : (pySplit ("STATE:" ++ tok ++ ":" ++ rest) ':').get? 1 = some tok :=
    pySplit_get1_mid_of_data _ ['S', 'T', 'A', 'T', 'E'] tok.data rest.data hdata
      (by decide) hc
  constructor
  · unfold hardpoint_handle_log hardpoint_parse_output_line parse_output_line
    rw [hTot, hProg, hState, hget]
    simp [hH]
  · unfold pose_handle_log pose_parse_output_line parse_output_line
    rw [hTot, hProg, hState, hget]
    simp [hP]

/-- Witness for C3's amended theorem at the concrete line `STATE:Phase:2`. -/
theorem state_token_between_first_and_second_colon_witness :
    hardpoint_handle_log ⟨0, 0⟩ ("STATE:" ++ "Phase" ++ ":" ++ "2") =
      ((⟨0, 0⟩ : WorkerState), [Event.stateChanged "Phase"]) ∧
    pose_handle_log ⟨0, 0⟩ ("STATE:" ++ "Phase" ++ ":" ++ "2") =
      ((⟨0, 0⟩ : WorkerState), [Event.stateChanged "Phase"]) :=
  state_token_between_first_and_second_colon ⟨0, 0⟩ "Phase" "2"
    (by decide) (by decide) (by decide)

/-- C5: for every n ≥ 0 (as the decimal numeral `TOTAL:n`) and every parser
state, feeding the line sets `_total_tasks` to n, leaves
`_current_progress` unchanged, and emits exactly one progress event
`(unchanged current, new total)` — also when n equals the previous total —
with no log-line event. -/
theorem total_line_updates_total_keeps_current (n : Nat) (st : WorkerState) :
    hardpoint_handle_log st ("TOTAL:" ++ decRep n) =
      ({ st with total_tasks := (n : Int) },
       [Event.progress st.current_progress (n : Int)]) := by
  have hdata : ("TOTAL:" ++ decRep n).data =
      ['T', 'O', 'T', 'A', 'L'] ++ ':' :: decRepAux n [] := by
    simp only [String.data_append]
    rfl
  have hTot : pyStartsWith ("TOTAL:" ++ decRep n) "TOTAL:" = true :=
    pyStartsWith_of_data _ _ (decRepAux n []) hdata
  have hget : (pySplit ("TOTAL:" ++ decRep n) ':').get? 1 = some (decRep n) :=
    pySplit_get1_of_data _ _ _ hdata (by decide)
      (fun c hc => (decRep_chars_digit n c hc).2.1)
  unfold hardpoint_handle_log hardpoint_parse_output_line parse_output_line
  rw [hTot, hget]
  simp [pyInt_decRep n]

/-- C6: feeding `PROGRESS:n` sets `_current_progress` to exactly n — an
absolute assignment, not an increment — and emits one progress event
`(n, total)`; a later `PROGRESS:m` overwrites it to m regardless of n.  The
same absolute assignment happens in the inline parsing of
`run_hardpoint_command`. -/
theorem progress_line_sets_current_absolute (n m : Nat) (st : WorkerState) :
    hardpoint_handle_log st ("PROGRESS:" ++ decRep n) =
      ({ st with current_progress := (n : Int) },
       [Event.progress (n : Int) st.total_tasks]) ∧
    hardpoint_handle_log { st with current_progress := (n : Int) }
        ("PROGRESS:" ++ decRep m) =
      ({ st with current_progress := (m : Int) },
       [Event.progress (m : Int) st.total_tasks]) ∧
    run_hardpoint_command_line true st ("PROGRESS:" ++ decRep n) =
      ({ st with current_progress := (n : Int) },
       [Event.progress (n : Int) st.total_tasks]) := by
  have key : ∀ (k : Nat) (s : WorkerState),
      hardpoint_handle_log s ("PROGRESS:" ++ decRep k) =
        ({ s with current_progress := (k : Int) },
         [Event.progress (k : Int) s.total_tasks]) := by
    intro k s
    have hdata : ("PROGRESS:" ++ decRep k).data =
        ['P', 'R', 'O', 'G', 'R', 'E', 'S', 'S'] ++ ':' :: decRepAux k [] := by
      simp only [String.data_append]
      rfl
    have hTot : pyStartsWith ("PROGRESS:" ++ decRep k) "TOTAL:" = false :=
      pyStartsWith_false_of_head _ _ 'P' 'T' _ _ hdata rfl (by decide)
    have hProg : pyStartsWith ("PROGRESS:" ++ decRep k) "PROGRESS:" = true :=
      pyStartsWith_of_data _ _ (decRepAux k []) hdata
    have hget : (pySplit ("PROGRESS:" ++ decRep k) ':').get? 1 = some (decRep k) :=
      pySplit_get1_of_data _ _ _ hdata (by decide)
        (fun c hc => (decRep_chars_digit k c hc).2.1)
    unfold hardpoint_handle_log hardpoint_parse_output_line parse_output_line
    rw [hTot, hProg, hget]
    simp [pyInt_decRep k]
  refine ⟨key n st, key m _, ?_⟩
  have hdata : ("PROGRESS:" ++ decRep n).data =
      ['P', 'R', 'O', 'G', 'R', 'E', 'S', 'S'] ++ ':' :: decRepAux n [] := by
    simp only [String.data_append]
    rfl
  have hTot : pyStartsWith ("PROGRESS:" ++ decRep n) "TOTAL:" = false :=
    pyStartsWith_false_of_head _ _ 'P' 'T' _ _ hdata rfl (by decide)
  have hProg : pyStartsWith ("PROGRESS:" ++ decRep n) "PROGRESS:" = true :=
    pyStartsWith_of_data _ _ (decRepAux n []) hdata
  have hget : (pySplit ("PROGRESS:" ++ decRep n) ':').get? 1 = some (decRep n) :=
    pySplit_get1_of_data _ _ _ hdata (by decide)
      (fun c hc => (decRep_chars_digit n c hc).2.1)
  have hspace : ∀ c ∈ ("PROGRESS:" ++ decRep n).data, isPySpace c = false := by
    intro c hc
    rw [hdata] at hc
    rcases List.mem_append.mp hc with h1 | h2
    · fin_cases h1 <;> rfl
    · rcases List.mem_cons.mp h2 with h3 | h4
      · subst h3; rfl
      · exact (decRep_chars_digit n c h4).2.2.2.2
  have hstrip : pyStrip ("PROGRESS:" ++ decRep n) = "PROGRESS:" ++ decRep n :=
    pyStrip_eq_self_of_data _ hspace
  have hne : ("PROGRESS:" ++ decRep n) ≠ "" := by
    intro he
    have hd := congrArg String.data he
    rw [hdata] at hd
    simp at hd
  unfold run_hardpoint_command_line
  rw [hstrip, if_pos hne, hTot, hProg, hget]
  simp [pyInt_decRep n]

/-- C10 (counterexample): from the initial state, feeding `PROGRESS:-5`
drives `_current_progress` to -5: the code's `int(...)` accepts negative
payloads, so nonnegativity is not an invariant of the parser. -/
theorem negative_progress_counterexample :
    (hardpoint_feed_lines ⟨0, 0⟩ ["PROGRESS:-5"]).current_progress = -5 ∧
    ¬ 0 ≤ (hardpoint_feed_lines ⟨0, 0⟩ ["PROGRESS:-5"]).current_progress := by
  decide

theorem parse_output_line_state_cases (descriptions : List (String × String))
    (st : WorkerState) (line : String) :
    (parse_output_line descriptions st line).state = st ∨
    ∃ n : Int, ((pySplit line ':').get? 1).bind pyInt = some n ∧
      (pyStartsWith line "TOTAL:" || pyStartsWith line "PROGRESS:") = true ∧
      ((parse_output_line descriptions st line).state = { st with total_tasks := n } ∨
       (parse_output_line descriptions st line).state = { st with current_progress := n }) := by
  unfold parse_output_line
  by_cases hT : pyStartsWith line "TOTAL:" = true
  · cases hbind : ((pySplit line ':').get? 1).bind pyInt with
    | none => left; simp [hT]
    | some n =>
      right
      refine ⟨n, rfl, by simp [hT], Or.inl ?_⟩
      simp [hT]
  · by_cases hPr : pyStartsWith line "PROGRESS:" = true
    · cases hbind : ((pySplit line ':').get? 1).bind pyInt with
      | none => left; simp [hT, hPr]
      | some n =>
        right
        refine ⟨n, rfl, by simp [hPr], Or.inr ?_⟩
        simp [hT, hPr]
    · left
      by_cases hS : pyStartsWith line "STATE:" = true
      · simp [hT, hPr, hS]
      · simp [hT, hPr, hS]

theorem handle_log_state_eq (st : WorkerState) (l : String) :
    (hardpoint_handle_log st l).1 = (hardpoint_parse_output_line st l).state := by
  simp only [hardpoint_handle_log]
  cases hr : (hardpoint_parse_output_line st l).ret <;> rfl

theorem handle_log_preserves_nonneg (st : WorkerState) (l : String)
    (h1 : 0 ≤ st.total_tasks) (h2 : 0 ≤ st.current_progress)
    (hl : linePayloadNonneg l = true) :
    0 ≤ (hardpoint_handle_log st l).1.total_tasks ∧
    0 ≤ (hardpoint_handle_log st l).1.current_progress := by
  rw [handle_log_state_eq st l]
  unfold hardpoint_parse_output_line
  rcases parse_output_line_state_cases hardpoint_state_descriptions st l with
    h | ⟨n, hbind, hpre, h | h⟩
  · rw [h]; exact ⟨h1, h2⟩
  · have hn : 0 ≤ n := by
      unfold linePayloadNonneg at hl
      rw [if_pos hpre, hbind] at hl
      exact of_decide_eq_true hl
    rw [h]
    exact ⟨hn, h2⟩
  · have hn : 0 ≤ n := by
      unfold linePayloadNonneg at hl
      rw [if_pos hpre, hbind] at hl
      exact of_decide_eq_true hl
    rw [h]
    exact ⟨h1, hn⟩

/-- C10 (amended): the nonnegativity invariant holds for exactly those line
sequences in which every `TOTAL:`/`PROGRESS:` line whose numeric field
parses at all parses to a nonnegative value: starting from
`(current, total) = (0, 0)`, after feeding any such sequence both counters
are still ≥ 0. -/
theorem progress_state_nonneg_invariant (lines : List String)
    (h : lines.all linePayloadNonneg = true) :
    0 ≤ (hardpoint_feed_lines ⟨0, 0⟩ lines).total_tasks ∧
    0 ≤ (hardpoint_feed_lines ⟨0, 0⟩ lines).current_progress := by
  have H : ∀ (ls : List String), ls.all linePayloadNonneg = true →
      ∀ st : WorkerState, 0 ≤ st.total_tasks → 0 ≤ st.current_progress →
        0 ≤ (hardpoint_feed_lines st ls).total_tasks ∧
        0 ≤ (hardpoint_feed_lines st ls).current_progress := by
    intro ls
    induction ls with
    | nil => intro _ st h1 h2; exact ⟨h1, h2⟩
    | cons l t ih =>
      intro hall st h1 h2
      rw [List.all_cons, Bool.and_eq_true] at hall
      have hstep := handle_log_preserves_nonneg st l h1 h2 hall.1
      have hfold : hardpoint_feed_lines st (l :: t) =
          hardpoint_feed_lines (hardpoint_handle_log st l).1 t := rfl
      rw [hfold]
      exact ih hall.2 _ hstep.1 hstep.2
  exact H lines h ⟨0, 0⟩ (le_refl 0) (le_refl 0)

/-- Witness for C10's amended theorem on a concrete mixed line sequence. -/
theorem progress_state_nonneg_invariant_witness :
    (["TOTAL:10", "PROGRESS:3", "STATE:Rebuilding", "hello"].all linePayloadNonneg
      = true) ∧
    (0 ≤ (hardpoint_feed_lines ⟨0, 0⟩
        ["TOTAL:10", "PROGRESS:3", "STATE:Rebuilding", "hello"]).total_tasks ∧
     0 ≤ (hardpoint_feed_lines ⟨0, 0⟩
        ["TOTAL:10", "PROGRESS:3", "STATE:Rebuilding", "hello"]).current_progress) :=
  ⟨by decide, progress_state_nonneg_invariant _ (by decide)⟩

/-- Witness for C2 at a concrete exception outcome and exit code. -/
theorem abort_flag_forces_operation_aborted_witness :
    hardpointWorker_finished true (OpOutcome.exn "boom") = (false, "Operation aborted") ∧
    poseCreationWorker_finished true (OpOutcome.exn "boom") = (false, "Operation aborted") ∧
    hardpoint_run_result true 3 = (false, "Operation aborted") ∧
    pose_run_result true false 3 = (false, "Operation aborted") :=
  abort_flag_forces_operation_aborted (OpOutcome.exn "boom") 3 false

/-- Witness for C4's amended theorem at the initial worker state. -/
theorem state_rebuilding_events_witness :
    hardpoint_handle_log ⟨0, 0⟩ "STATE:Rebuilding" =
      ((⟨0, 0⟩ : WorkerState), [Event.stateChanged "Rebuilding model..."]) ∧
    run_hardpoint_command_line true ⟨0, 0⟩ "STATE:Rebuilding" =
      ((⟨0, 0⟩ : WorkerState), [Event.stateChanged "Rebuilding"]) :=
  state_rebuilding_events ⟨0, 0⟩

/-- Witness for C5 at n = 7 from the state (total, current) = (2, 5). -/
theorem total_line_updates_total_keeps_current_witness :
    hardpoint_handle_log ⟨2, 5⟩ ("TOTAL:" ++ decRep 7) =
      ((⟨7, 5⟩ : WorkerState), [Event.progress 5 7]) :=
  total_line_updates_total_keeps_current 7 ⟨2, 5⟩

/-- Witness for C6 at n = 4, m = 9 from the state (total, current) = (3, 2). -/
theorem progress_line_sets_current_absolute_witness :
    hardpoint_handle_log ⟨3, 2⟩ ("PROGRESS:" ++ decRep 4) =
      ((⟨3, 4⟩ : WorkerState), [Event.progress 4 3]) ∧
    hardpoint_handle_log ⟨3, 4⟩ ("PROGRESS:" ++ decRep 9) =
      ((⟨3, 9⟩ : WorkerState), [Event.progress 9 3]) ∧
    run_hardpoint_command_line true ⟨3, 2⟩ ("PROGRESS:" ++ decRep 4) =
      ((⟨3, 4⟩ : WorkerState), [Event.progress 4 3]) :=
  progress_line_sets_current_absolute 4 9 ⟨3, 2⟩
